import Mathlib

/-!
Verification of the authentication / model-abstraction core of the
go-netgear switch-management client.

Go strings are modelled as `List Char` where the code treats them as text
(markers, URLs, tokens, file contents) and as `List Nat` (byte values) where
the code indexes raw bytes (the credential codec and hashing).  Filesystem
effects are modelled by an explicit association list from file names to file
contents, and by lists of explicit filesystem operations where permission
bits matter.
-/

set_option maxRecDepth 4096

/-- Embedding of Go `strings.Contains(s, sub)`: `sub` occurs as a contiguous
substring of `s`. -/
def goContains (s sub : List Char) : Bool :=
  decide (sub <:+: s)

/-- Embedding of Go `strings.ToLower` restricted to ASCII (all markers the
code compares against are ASCII). -/
def goToLower (s : List Char) : List Char :=
  s.map Char.toLower

/-- Whitespace test used by Go `strings.TrimSpace` (ASCII cases). -/
def goIsSpace (c : Char) : Bool :=
  " \t\n\x0b\x0c\r".toList.contains c

/-- Embedding of Go `strings.TrimSpace`. -/
def goTrimSpace (s : List Char) : List Char :=
  ((s.dropWhile goIsSpace).reverse.dropWhile goIsSpace).reverse

/-- Embedding of Go `strings.SplitN(s, sep, 2)` for a one-character
separator: the part before the first separator and everything after it;
the whole string when the separator does not occur. -/
def goSplitN2 (s : List Char) (sep : Char) : List (List Char) :=
  let pre := s.takeWhile (fun c => !(c == sep))
  match s.dropWhile (fun c => !(c == sep)) with
  | [] => [s]
  | _ :: rest => [pre, rest]

/-! ## Netgear models (internal/types/types.go and internal/common/util.go) -/

/-- The `types.NetgearModel` type, a string type in the source. -/
abbrev NetgearModel : Type := List Char

/-- Constant `types.GS30xEPx`. -/
def GS30xEPx : NetgearModel := "GS30xEPx".toList

/-- Constant `types.GS305EP`. -/
def GS305EP : NetgearModel := "GS305EP".toList

/-- Constant `types.GS305EPP`. -/
def GS305EPP : NetgearModel := "GS305EPP".toList

/-- Constant `types.GS308EP`. -/
def GS308EP : NetgearModel := "GS308EP".toList

/-- Constant `types.GS308EPP`. -/
def GS308EPP : NetgearModel := "GS308EPP".toList

/-- Constant `types.GS316EP`. -/
def GS316EP : NetgearModel := "GS316EP".toList

/-- Constant `types.GS316EPP`. -/
def GS316EPP : NetgearModel := "GS316EPP".toList

/-- Embedding of `common.IsModel30x` (internal/common/util.go). -/
def IsModel30x (nm : NetgearModel) : Bool :=
  decide (nm = GS305EP) || decide (nm = GS305EPP) || decide (nm = GS308EP) ||
    decide (nm = GS308EPP) || decide (nm = GS30xEPx)

/-- Embedding of `common.IsModel316` (internal/common/util.go). -/
def IsModel316 (nm : NetgearModel) : Bool :=
  decide (nm = GS316EP) || decide (nm = GS316EPP)

/-- Embedding of `common.IsSupportedModel` (internal/common/util.go). -/
def IsSupportedModel (modelName : List Char) : Bool :=
  IsModel30x modelName || IsModel316 modelName

/-! ## The credential codec (src/final_auth.go and src/unnamed/part_010) -/

/-- Embedding of `specialMerge(password, seedValue)`: the Go `for` loop over
`i < maxLen` appending `password[i]` and then `seedValue[i]` whenever each
index is in range, accumulated in a `strings.Builder`.  Go indexes bytes, so
the arguments are byte lists. -/
def specialMerge (password seedValue : List Nat) : List Nat :=
  let maxLen := if seedValue.length > password.length then seedValue.length else password.length
  (List.range maxLen).foldl (fun result i =>
    let result := if i < password.length then result ++ [password.getD i 0] else result
    if i < seedValue.length then result ++ [seedValue.getD i 0] else result) []

/-- The interleave rule as the specification words it: take
`password[0], seed[0], password[1], seed[1], ...` and, once one string is
exhausted, append only the remaining characters of the other.  Used to check
`specialMerge` against the spec's description. -/
def interleaveSpec : List Nat → List Nat → List Nat
  | [], s => s
  | p, [] => p
  | a :: p, b :: s => a :: b :: interleaveSpec p s

/-- Byte contribution of loop iteration `i` of `specialMerge`. -/
def mergeStep (password seedValue : List Nat) (i : Nat) : List Nat :=
  (if i < password.length then [password.getD i 0] else []) ++
    (if i < seedValue.length then [seedValue.getD i 0] else [])

/-! ## MD5 (Go `crypto/md5`, used by `final_auth.go` and part_010)

Machine words are `Nat` reduced modulo `2^32`; message bytes are `Nat`
values below `256`. -/

/-- The 64 sine-derived round constants of MD5. -/
def md5K : List Nat :=
  [0xd76aa478, 0xe8c7b756, 0x242070db, 0xc1bdceee,
   0xf57c0faf, 0x4787c62a, 0xa8304613, 0xfd469501,
   0x698098d8, 0x8b44f7af, 0xffff5bb1, 0x895cd7be,
   0x6b901122, 0xfd987193, 0xa679438e, 0x49b40821,
   0xf61e2562, 0xc040b340, 0x265e5a51, 0xe9b6c7aa,
   0xd62f105d, 0x02441453, 0xd8a1e681, 0xe7d3fbc8,
   0x21e1cde6, 0xc33707d6, 0xf4d50d87, 0x455a14ed,
   0xa9e3e905, 0xfcefa3f8, 0x676f02d9, 0x8d2a4c8a,
   0xfffa3942, 0x8771f681, 0x6d9d6122, 0xfde5380c,
   0xa4beea44, 0x4bdecfa9, 0xf6bb4b60, 0xbebfbc70,
   0x289b7ec6, 0xeaa127fa, 0xd4ef3085, 0x04881d05,
   0xd9d4d039, 0xe6db99e5, 0x1fa27cf8, 0xc4ac5665,
   0xf4292244, 0x432aff97, 0xab9423a7, 0xfc93a039,
   0x655b59c3, 0x8f0ccc92, 0xffeff47d, 0x85845dd1,
   0x6fa87e4f, 0xfe2ce6e0, 0xa3014314, 0x4e0811a1,
   0xf7537e82, 0xbd3af235, 0x2ad7d2bb, 0xeb86d391]

/-- The 64 per-round left-rotation amounts of MD5. -/
def md5S : List Nat :=
  [7, 12, 17, 22, 7, 12, 17, 22, 7, 12, 17, 22, 7, 12, 17, 22,
   5, 9, 14, 20, 5, 9, 14, 20, 5, 9, 14, 20, 5, 9, 14, 20,
   4, 11, 16, 23, 4, 11, 16, 23, 4, 11, 16, 23, 4, 11, 16, 23,
   6, 10, 15, 21, 6, 10, 15, 21, 6, 10, 15, 21, 6, 10, 15, 21]

/-- Left rotation of a 32-bit word (inputs are below `2^32`). -/
def rotl32 (x s : Nat) : Nat :=
  (x * 2 ^ s + x / 2 ^ (32 - s)) % 4294967296

/-- Bitwise complement of a 32-bit word below `2^32`. -/
def not32 (x : Nat) : Nat := x ^^^ 0xffffffff

/-- MD5 round function F. -/
def md5F (b c d : Nat) : Nat := (b &&& c) ||| (not32 b &&& d)

/-- MD5 round function G. -/
def md5G (b c d : Nat) : Nat := (d &&& b) ||| (not32 d &&& c)

/-- MD5 round function H. -/
def md5H (b c d : Nat) : Nat := b ^^^ c ^^^ d

/-- MD5 round function I. -/
def md5I (b c d : Nat) : Nat := c ^^^ (b ||| not32 d)

/-- One of the 64 MD5 rounds; `m j` is the `j`-th little-endian word of the
current 64-byte block. -/
def md5Round (m : Nat → Nat) (st : Nat × Nat × Nat × Nat) (i : Nat) :
    Nat × Nat × Nat × Nat :=
  let (a, b, c, d) := st
  let fg : Nat × Nat :=
    if i < 16 then (md5F b c d, i)
    else if i < 32 then (md5G b c d, (5 * i + 1) % 16)
    else if i < 48 then (md5H b c d, (3 * i + 5) % 16)
    else (md5I b c d, (7 * i) % 16)
  let f := (fg.1 + a + md5K.getD i 0 + m fg.2) % 4294967296
  (d, (b + rotl32 f (md5S.getD i 0)) % 4294967296, b, c)

/-- Process one 64-byte block, adding the round results to the running
state. -/
def md5ProcessBlock (st : Nat × Nat × Nat × Nat) (block : List Nat) :
    Nat × Nat × Nat × Nat :=
  let m : Nat → Nat := fun j =>
    block.getD (4 * j) 0 + 256 * block.getD (4 * j + 1) 0 +
      65536 * block.getD (4 * j + 2) 0 + 16777216 * block.getD (4 * j + 3) 0
  let r := (List.range 64).foldl (md5Round m) st
  ((st.1 + r.1) % 4294967296, (st.2.1 + r.2.1) % 4294967296,
   (st.2.2.1 + r.2.2.1) % 4294967296, (st.2.2.2 + r.2.2.2) % 4294967296)

/-- Little-endian 8-byte rendering of the 64-bit message bit length. -/
def le64bytes (n : Nat) : List Nat :=
  [n % 256, n / 256 % 256, n / 65536 % 256, n / 16777216 % 256,
   n / 4294967296 % 256, n / 1099511627776 % 256,
   n / 281474976710656 % 256, n / 72057594037927936 % 256]

/-- MD5 padding: `0x80`, zeros to 56 mod 64, then the bit length. -/
def md5Pad (msg : List Nat) : List Nat :=
  msg ++ 0x80 :: List.replicate ((120 - (msg.length + 1) % 64) % 64) 0 ++
    le64bytes (msg.length * 8 % 18446744073709551616)

/-- Split a byte list into 64-byte blocks; the fuel argument (always at
least the list length, which strictly drops each step) makes the recursion
structural. -/
def toBlocksF : Nat → List Nat → List (List Nat)
  | _, [] => []
  | 0, _ :: _ => []
  | fuel + 1, a :: t => ((a :: t).take 64) :: toBlocksF fuel ((a :: t).drop 64)

/-- Split a byte list into 64-byte blocks. -/
def toBlocks (l : List Nat) : List (List Nat) :=
  toBlocksF l.length l

/-- Little-endian 4-byte rendering of a 32-bit word. -/
def le32 (w : Nat) : List Nat :=
  [w % 256, w / 256 % 256, w / 65536 % 256, w / 16777216 % 256]

/-- Embedding of Go `md5.Sum`: the 16-byte MD5 digest of a byte list. -/
def md5Sum (msg : List Nat) : List Nat :=
  let st := (toBlocks (md5Pad msg)).foldl md5ProcessBlock
    (0x67452301, 0xefcdab89, 0x98badcfe, 0x10325476)
  le32 st.1 ++ le32 st.2.1 ++ le32 st.2.2.1 ++ le32 st.2.2.2

/-- The lowercase hex digit for `n < 16`, as rendered by Go `fmt.Sprintf("%x", ...)`. -/
def hexDigit (n : Nat) : Char :=
  if n < 10 then Char.ofNat (48 + n) else Char.ofNat (87 + n)

/-- Two lowercase hex digits of one byte. -/
def byteToHex (b : Nat) : List Char :=
  [hexDigit (b / 16), hexDigit (b % 16)]

/-- Lowercase hex rendering of a byte list (Go `fmt.Sprintf("%x", bytes)`). -/
def bytesToHex (bs : List Nat) : List Char :=
  (bs.map byteToHex).flatten

/-- Embedding of the credential computation of `final_auth.go` /
part_010: `fmt.Sprintf("%x", md5.Sum([]byte(specialMerge(password, seed))))`. -/
def Encrypt (password seedValue : List Nat) : List Char :=
  bytesToHex (md5Sum (specialMerge password seedValue))

/-- The sixteen lowercase hexadecimal characters. -/
def hexChars : List Char :=
  "0123456789abcdef".toList

/-! ## Model detection

`detectNetgearModelFromResponse` (internal/models/netgear_model.go) and
`ModelDetector.DetectFromHTML` (pkg/netgear/internal/parser.go). -/

/-- Embedding of `detectNetgearModelFromResponse(body)`. -/
def detectNetgearModelFromResponse (body : List Char) : NetgearModel :=
  if goContains (goToLower body) "<title>".toList && goContains body "GS316EPP".toList then
    GS316EPP
  else if goContains (goToLower body) "<title>".toList && goContains body "GS316EP".toList then
    GS316EP
  else if goContains (goToLower body) "<title>".toList &&
      goContains body "Redirect to Login".toList then
    GS30xEPx
  else
    []

/-- The most-specific-first model marker list of `ModelDetector.DetectFromHTML`. -/
def specificModels : List (List Char) :=
  ["GS316EPP".toList, "GS308EPP".toList, "GS305EPP".toList,
   "GS316EP".toList, "GS308EP".toList, "GS305EP".toList]

/-- Embedding of `ModelDetector.DetectFromHTML(htmlContent)`: first matching
marker of `specificModels`, else the generic `GS30xEPx` on a redirect page,
else the empty string. -/
def DetectFromHTML (htmlContent : List Char) : List Char :=
  match specificModels.find? (fun model => goContains htmlContent model) with
  | some model => model
  | none =>
    if goContains htmlContent "Redirect to Login".toList ||
        goContains htmlContent "redirect".toList then
      "GS30xEPx".toList
    else
      []

/-- Embedding of `common.CheckIsLoginRequired(httpResponseBody)`
(src/unnamed/part_003). -/
def CheckIsLoginRequired (httpResponseBody : List Char) : Bool :=
  decide (httpResponseBody.length < 10) ||
    goContains httpResponseBody "/login.cgi".toList ||
    goContains httpResponseBody "/wmi/login".toList ||
    goContains httpResponseBody "/redirect.html".toList

/-! ## Authenticated transport (`common.DoHttpRequestAndReadResponse`,
src/unnamed/part_003)

Only the pure request construction is embedded: given the model and token
read from the store, the function rewrites the request URL (Family316 only)
and picks the `Cookie` header value; `none` models the `panic` on an
unsupported model. -/

/-- Embedding of the URL rewrite and cookie selection of
`DoHttpRequestAndReadResponse`: returns `(finalUrl, cookieHeaderValue)`. -/
def attachAuth (model : NetgearModel) (token requestUrl : List Char) :
    Option (List Char × List Char) :=
  let requestUrl :=
    if IsModel316 model then
      if goContains requestUrl ['?'] then
        let splits := requestUrl.splitOn '?'
        splits.getD 0 [] ++ "?Gambit=".toList ++ token ++ "&".toList ++ splits.getD 1 []
      else
        requestUrl ++ "?Gambit=".toList ++ token
    else requestUrl
  if IsModel30x model then
    some (requestUrl, "SID=".toList ++ token)
  else if IsModel316 model then
    some (requestUrl, "gambitCookie=".toList ++ token)
  else
    none

/-! ## Errors of the pkg/netgear package

Modelled from the spec: the errors file of pkg/netgear (defining
`NewAuthError`, `NewModelError`, `NewOperationError`) is not under src; only
its call sites are.  Per the spec's §7, errors are tagged, inspectable
kinds; each constructor below mirrors one constructor function called in
src, carrying the message built at the call site. -/
inductive NetgearError where
  | authError (msg : List Char)
  | modelError (msg : List Char)
  | operationError (msg : List Char)
deriving DecidableEq, Repr

instance {ε α : Type} [DecidableEq ε] [DecidableEq α] : DecidableEq (Except ε α) :=
  fun a b =>
    match a, b with
    | .error x, .error y =>
      if h : x = y then isTrue (by rw [h]) else
        isFalse (by intro hh; cases hh; exact h rfl)
    | .error _, .ok _ => isFalse (by intro h; cases h)
    | .ok _, .error _ => isFalse (by intro h; cases h)
    | .ok x, .ok y =>
      if h : x = y then isTrue (by rw [h]) else
        isFalse (by intro hh; cases hh; exact h rfl)

/-- The inspectable kind of an error: which error constructor produced it
(callers branch on cause, not on message text, per the spec's §7). -/
inductive ErrKind where
  | auth
  | model
  | operation
deriving DecidableEq, Repr

/-- Kind of an error value. -/
def errKind : NetgearError → ErrKind
  | .authError _ => .auth
  | .modelError _ => .model
  | .operationError _ => .operation

/-! ## File-backed token store (`FileTokenManager`, src/unnamed/part_006)

The filesystem under the cache directory is an association list from file
names to file contents; a write prepends (shadowing any older entry), a
remove drops all entries for the name. -/

/-- Filesystem contents under the token cache directory. -/
abbrev Fs : Type := List (List Char × List Char)

/-- Read a file: the most recently written content for the name. -/
def fsRead (fs : Fs) (name : List Char) : Option (List Char) :=
  (fs.find? (fun e => e.1 == name)).map (fun e => e.2)

/-- Write (create or replace) a file. -/
def fsWrite (fs : Fs) (name content : List Char) : Fs :=
  (name, content) :: fs

/-- Remove a file. -/
def fsRemove (fs : Fs) (name : List Char) : Fs :=
  fs.filter (fun e => !(e.1 == name))

/-- FNV-1a 32-bit hash of a byte list (Go `hash/fnv`, `New32a`). -/
def fnv32a (data : List Nat) : Nat :=
  data.foldl (fun h b => ((h ^^^ b) * 16777619) % 4294967296) 2166136261

/-- Big-endian 4-byte rendering of a 32-bit word (Go `hash.Sum(nil)` for a
32-bit hash appends big-endian). -/
def be32 (w : Nat) : List Nat :=
  [w / 16777216 % 256, w / 65536 % 256, w / 256 % 256, w % 256]

/-- Embedding of `FileTokenManager.getTokenFilename` relative to the cache
directory: `netgear-token-%x.cache` of the FNV-1a hash of the address. -/
def FileTokenManager.getTokenFilename (address : List Char) : List Char :=
  "netgear-token-".toList ++ bytesToHex (be32 (fnv32a (address.map Char.toNat))) ++
    ".cache".toList

/-- Embedding of `FileTokenManager.GetToken`: read the token file, reject
empty or separator-less content, split on the first `:`, trim both parts,
and require a supported model.  Returns `(token, model)` like the Go method. -/
def FileTokenManager.GetToken (fs : Fs) (address : List Char) :
    Except NetgearError (List Char × NetgearModel) :=
  match fsRead fs (FileTokenManager.getTokenFilename address) with
  | none => .error (.authError "failed to read token file".toList)
  | some content =>
    if content = [] then
      .error (.authError "token file is empty, please upgrade your token file".toList)
    else if !goContains content [':'] then
      .error (.authError "malformed token file".toList)
    else
      let parts := goSplitN2 content ':'
      if parts.length ≠ 2 then
        .error (.authError "malformed token file".toList)
      else
        let modelStr := goTrimSpace (parts.getD 0 [])
        let token := goTrimSpace (parts.getD 1 [])
        if !IsSupportedModel modelStr then
          .error (.modelError ("unknown model '".toList ++ modelStr ++
            "' in token file".toList))
        else
          .ok (token, modelStr)

/-- Embedding of `FileTokenManager.StoreToken`: write `model:token` to the
token file (directory creation and permission bits are modelled separately
as an operation list for the permission claims). -/
def FileTokenManager.StoreToken (fs : Fs) (address token : List Char)
    (model : NetgearModel) : Fs :=
  fsWrite fs (FileTokenManager.getTokenFilename address) (model ++ [':'] ++ token)

/-- Embedding of `FileTokenManager.DeleteToken`: `os.Remove` the token file;
a does-not-exist failure is swallowed (`os.IsNotExist`), so the returned
error is `none` in both cases; any pair returned is `(newFs, error)`. -/
def FileTokenManager.DeleteToken (fs : Fs) (address : List Char) :
    Fs × Option NetgearError :=
  if (fsRead fs (FileTokenManager.getTokenFilename address)).isSome then
    (fsRemove fs (FileTokenManager.getTokenFilename address), none)
  else
    (fs, none)

/-! ## In-memory token store (`MemoryTokenManager`, src/unnamed/part_006) -/

/-- The `map[string]tokenData` of `MemoryTokenManager`, keyed by address. -/
abbrev MemStore : Type := List (List Char × (List Char × NetgearModel))

/-- Embedding of `MemoryTokenManager.GetToken`. -/
def MemoryTokenManager.GetToken (m : MemStore) (address : List Char) :
    Except NetgearError (List Char × NetgearModel) :=
  match (m.find? (fun e => e.1 == address)).map (fun e => e.2) with
  | none => .error (.authError "token not found".toList)
  | some data => .ok data

/-- Embedding of `MemoryTokenManager.StoreToken`. -/
def MemoryTokenManager.StoreToken (m : MemStore) (address token : List Char)
    (model : NetgearModel) : MemStore :=
  (address, (token, model)) :: m

/-- Embedding of `MemoryTokenManager.DeleteToken`: `delete` on a Go map never
fails, and the method always returns `nil`. -/
def MemoryTokenManager.DeleteToken (m : MemStore) (address : List Char) :
    MemStore × Option NetgearError :=
  (m.filter (fun e => !(e.1 == address)), none)

/-! ## Endpoint registry (`EndpointRegistry`, src/unnamed/part_007)

`EndpointType` is a string type in Go with eight declared constants;
`EndpointRegistry` holds the model and dispatches per family. -/

/-- String constant `login` of `EndpointType`. -/
def EndpointLogin : List Char := "login".toList

/-- String constant `poe_status`. -/
def EndpointPOEStatus : List Char := "poe_status".toList

/-- String constant `poe_settings`. -/
def EndpointPOESettings : List Char := "poe_settings".toList

/-- String constant `poe_update`. -/
def EndpointPOEUpdate : List Char := "poe_update".toList

/-- String constant `port_status`. -/
def EndpointPortStatus : List Char := "port_status".toList

/-- String constant `port_settings`. -/
def EndpointPortSettings : List Char := "port_settings".toList

/-- String constant `port_update`. -/
def EndpointPortUpdate : List Char := "port_update".toList

/-- String constant `dashboard`. -/
def EndpointDashboard : List Char := "dashboard".toList

/-- Embedding of `EndpointInfo`. -/
structure EndpointInfo where
  url : List Char
  supported : Bool
  method : List Char
deriving DecidableEq, Repr

/-- Embedding of `EndpointRegistry.getGS30xEndpoint`. -/
def getGS30xEndpoint (endpointType : List Char) : EndpointInfo :=
  if endpointType = EndpointLogin then
    ⟨"/login.cgi".toList, true, "POST".toList⟩
  else if endpointType = EndpointPOEStatus then
    ⟨"/getPoePortStatus.cgi".toList, true, "GET".toList⟩
  else if endpointType = EndpointPOESettings then
    ⟨"/PoEPortConfig.cgi".toList, true, "GET".toList⟩
  else if endpointType = EndpointPOEUpdate then
    ⟨"/PoEPortConfig.cgi".toList, true, "POST".toList⟩
  else if endpointType = EndpointPortStatus then
    ⟨"/dashboard.cgi".toList, false, "GET".toList⟩
  else if endpointType = EndpointPortSettings then
    ⟨"/dashboard.cgi".toList, false, "GET".toList⟩
  else if endpointType = EndpointPortUpdate then
    ⟨"/PortConfig.cgi".toList, false, "POST".toList⟩
  else if endpointType = EndpointDashboard then
    ⟨"/dashboard.cgi".toList, true, "GET".toList⟩
  else
    ⟨[], false, []⟩

/-- Embedding of `EndpointRegistry.getGS316Endpoint`. -/
def getGS316Endpoint (endpointType : List Char) : EndpointInfo :=
  if endpointType = EndpointLogin then
    ⟨"/login.cgi".toList, true, "POST".toList⟩
  else if endpointType = EndpointPOEStatus then
    ⟨"/iss/specific/poePortStatus.html".toList, true, "GET".toList⟩
  else if endpointType = EndpointPOESettings then
    ⟨"/iss/specific/poePortConf.html".toList, true, "GET".toList⟩
  else if endpointType = EndpointPOEUpdate then
    ⟨"/iss/specific/poePortConf.html".toList, true, "POST".toList⟩
  else if endpointType = EndpointPortStatus then
    ⟨"/iss/specific/interface.html".toList, true, "GET".toList⟩
  else if endpointType = EndpointPortSettings then
    ⟨"/iss/specific/interface.html".toList, true, "GET".toList⟩
  else if endpointType = EndpointPortUpdate then
    ⟨"/iss/specific/interface.html".toList, true, "POST".toList⟩
  else if endpointType = EndpointDashboard then
    ⟨"/iss/specific/dashboard.html".toList, true, "GET".toList⟩
  else
    ⟨[], false, []⟩

/-- Embedding of `EndpointRegistry.GetEndpoint`: dispatch on the registry's
model family.  The family predicates of the pkg/netgear `Model` type are not
under src; modelled from the spec's two-family data model via the in-src
`common.IsModel30x` / `common.IsModel316` over the same model names. -/
def GetEndpoint (model : NetgearModel) (endpointType : List Char) : EndpointInfo :=
  if IsModel30x model then getGS30xEndpoint endpointType
  else if IsModel316 model then getGS316Endpoint endpointType
  else ⟨[], false, []⟩

/-- Embedding of `EndpointRegistry.ValidateEndpoint`: `nil` (`none`) when
supported, otherwise the operation-not-supported error built with
`fmt.Sprintf("%s operation not supported on %s model", ...)`. -/
def ValidateEndpoint (model : NetgearModel) (endpointType : List Char) :
    Option NetgearError :=
  if !(GetEndpoint model endpointType).supported then
    some (.operationError (endpointType ++ " operation not supported on ".toList ++
      model ++ " model".toList))
  else
    none

/-! ## Token-persisting filesystem operations and their permission bits

`FileTokenManager.StoreToken` (src/unnamed/part_006) and the legacy
`client.storeToken` / `ensureConfigPathExists` (src/internal/client/http.go),
as the sequence of filesystem calls each makes.  Permissions are the octal
mode arguments passed to `os.MkdirAll` / `os.WriteFile` (for the legacy
directory, `os.ModeDir|0700`: the permission bits are `0700`). -/

/-- One filesystem call made by a token-persisting path. -/
inductive FsOp where
  | mkdirAll (path : List Char) (perm : Nat)
  | writeFile (path : List Char) (content : List Char) (perm : Nat)
deriving DecidableEq, Repr

/-- The calls of `FileTokenManager.StoreToken`: create the cache directory
with `0700`, then write `model:token` with `0600`. -/
def FileTokenManager.StoreTokenOps (cacheDir address token : List Char)
    (model : NetgearModel) : List FsOp :=
  [.mkdirAll cacheDir 0o700,
   .writeFile (cacheDir ++ "/".toList ++ FileTokenManager.getTokenFilename address)
     (model ++ [':'] ++ token) 0o600]

/-- Adler-32 hash of a byte list (Go `hash/adler32`). -/
def adler32 (data : List Nat) : Nat :=
  let ab := data.foldl (fun ab b => ((ab.1 + b) % 65521, (ab.2 + ab.1 + b) % 65521)) (1, 0)
  ab.2 * 65536 + ab.1

/-- Embedding of `client.dotConfigDirName` / `common.dotConfigDirName`:
`configDir` (or the temp directory when empty) joined with `.config/ntgrrc`. -/
def dotConfigDirName (configDir tempDir : List Char) : List Char :=
  (if configDir = [] then tempDir else configDir) ++ "/.config/ntgrrc".toList

/-- Embedding of `client.tokenFilename` / `common.tokenFilename`: the config
directory joined with `token-%x` of the Adler-32 hash of the host. -/
def legacyTokenFilename (configDir tempDir host : List Char) : List Char :=
  dotConfigDirName configDir tempDir ++ "/token-".toList ++
    bytesToHex (be32 (adler32 (host.map Char.toNat)))

/-- The calls of the legacy `client.storeToken`: `ensureConfigPathExists`
creates the config directory with permission bits `0700`, then the token
file is written with `0644`. -/
def legacyStoreTokenOps (configDir tempDir host token : List Char)
    (model : NetgearModel) : List FsOp :=
  [.mkdirAll (dotConfigDirName configDir tempDir) 0o700,
   .writeFile (legacyTokenFilename configDir tempDir host)
     (model ++ [':'] ++ token) 0o644]

/-- Directory permission bits passed by an operation list. -/
def mkdirPerms (ops : List FsOp) : List Nat :=
  ops.filterMap (fun op => match op with
    | .mkdirAll _ perm => some perm
    | .writeFile _ _ _ => none)

/-- File permission bits passed by an operation list. -/
def writePerms (ops : List FsOp) : List Nat :=
  ops.filterMap (fun op => match op with
    | .mkdirAll _ _ => none
    | .writeFile _ _ perm => some perm)

/-- Bytes of an ASCII Go string literal. -/
def strBytes (s : String) : List Nat := s.toList.map Char.toNat

/-! ## Lemmas and claim theorems -/

theorem foldl_append_eq_flatten {α β : Type} (g : α → List β) :
    ∀ (l : List α) (acc : List β),
      l.foldl (fun r i => r ++ g i) acc = acc ++ (l.map g).flatten := by
  intro l
  induction l with
  | nil => intro acc; simp
  | cons x xs ih => intro acc; simp [ih]

theorem specialMerge_step (password seedValue : List Nat) :
    specialMerge password seedValue =
      ((List.range (max password.length seedValue.length)).map
        (mergeStep password seedValue)).flatten := by
  unfold specialMerge
  have hmax : (if seedValue.length > password.length then seedValue.length
      else password.length) = max password.length seedValue.length := by
    split <;> omega
  rw [hmax]
  have hstep : (fun (result : List Nat) (i : Nat) =>
      let result := if i < password.length then result ++ [password.getD i 0] else result
      if i < seedValue.length then result ++ [seedValue.getD i 0] else result) =
      fun result i => result ++ mergeStep password seedValue i := by
    funext result i
    unfold mergeStep
    by_cases h1 : i < password.length <;> by_cases h2 : i < seedValue.length <;>
      simp [h1, h2]
  rw [hstep, foldl_append_eq_flatten]
  simp

theorem flatten_range_getD (s : List Nat) :
    ((List.range s.length).map (fun i => [s.getD i 0])).flatten = s := by
  induction s with
  | nil => simp
  | cons b s' ih =>
    rw [List.length_cons, List.range_succ_eq_map]
    simp only [List.map_cons, List.map_map, List.flatten_cons]
    have hc : ((fun i => [(b :: s').getD i 0]) ∘ Nat.succ) = fun i => [s'.getD i 0] := by
      funext i; simp
    rw [hc, ih]
    simp

theorem mergeStep_nil_left (s : List Nat) :
    ((List.range (max ([] : List Nat).length s.length)).map (mergeStep [] s)).flatten = s := by
  have hm : max ([] : List Nat).length s.length = s.length := by simp
  rw [hm]
  have hc : ∀ i ∈ List.range s.length, mergeStep [] s i = [s.getD i 0] := by
    intro i hi
    simp [mergeStep, List.mem_range.mp hi]
  rw [List.map_congr_left hc, flatten_range_getD]

theorem mergeStep_nil_right (p : List Nat) :
    ((List.range (max p.length ([] : List Nat).length)).map (mergeStep p [])).flatten = p := by
  have hm : max p.length ([] : List Nat).length = p.length := by simp
  rw [hm]
  have hc : ∀ i ∈ List.range p.length, mergeStep p [] i = [p.getD i 0] := by
    intro i hi
    simp [mergeStep, List.mem_range.mp hi]
  rw [List.map_congr_left hc, flatten_range_getD]

theorem mergeStep_cons (a b : Nat) (p s : List Nat) :
    ((List.range (max (a :: p).length (b :: s).length)).map
        (mergeStep (a :: p) (b :: s))).flatten =
      a :: b ::
        ((List.range (max p.length s.length)).map (mergeStep p s)).flatten := by
  have hm : max (a :: p).length (b :: s).length = max p.length s.length + 1 := by
    simp [Nat.succ_max_succ]
  rw [hm, List.range_succ_eq_map]
  simp only [List.map_cons, List.map_map, List.flatten_cons]
  have hms : (mergeStep (a :: p) (b :: s)) ∘ Nat.succ = mergeStep p s := by
    funext i
    simp [mergeStep]
  rw [hms]
  simp [mergeStep]

theorem range_map_flatten_interleave :
    ∀ (p s : List Nat),
      ((List.range (max p.length s.length)).map (mergeStep p s)).flatten =
        interleaveSpec p s := by
  intro p
  induction p with
  | nil =>
    intro s
    rw [mergeStep_nil_left]
    cases s <;> rfl
  | cons a p' ihp =>
    intro s
    cases s with
    | nil =>
      rw [mergeStep_nil_right]
      rfl
    | cons b s' =>
      rw [mergeStep_cons, ihp s']
      rfl

/-- The loop of `specialMerge` computes exactly the spec's interleave rule. -/
theorem specialMerge_eq_interleaveSpec (p s : List Nat) :
    specialMerge p s = interleaveSpec p s := by
  rw [specialMerge_step, range_map_flatten_interleave]

theorem le32_length (w : Nat) : (le32 w).length = 4 := rfl

theorem le32_lt (w : Nat) : ∀ b ∈ le32 w, b < 256 := by
  intro b hb
  simp only [le32, List.mem_cons, List.not_mem_nil, or_false] at hb
  rcases hb with h | h | h | h <;> subst h <;> exact Nat.mod_lt _ (by omega)

theorem md5Sum_length (msg : List Nat) : (md5Sum msg).length = 16 := by
  simp [md5Sum, le32]

theorem le32_append_lt (w : Nat) (l : List Nat) (hl : ∀ b ∈ l, b < 256) :
    ∀ b ∈ le32 w ++ l, b < 256 := by
  intro b hb
  rcases List.mem_append.mp hb with h | h
  · exact le32_lt w b h
  · exact hl b h

theorem md5Sum_lt (msg : List Nat) : ∀ b ∈ md5Sum msg, b < 256 := by
  intro b hb
  simp only [md5Sum] at hb
  exact le32_append_lt _ _ (le32_append_lt _ _ (le32_append_lt _ _ (le32_lt _))) b hb

theorem hexDigit_mem (n : Nat) (h : n < 16) : hexDigit n ∈ hexChars := by
  interval_cases n <;> decide

theorem bytesToHex_length (bs : List Nat) :
    (bytesToHex bs).length = 2 * bs.length := by
  induction bs with
  | nil => rfl
  | cons b t ih =>
    simp only [bytesToHex, List.map_cons, List.flatten_cons] at ih ⊢
    simp [byteToHex, ih]
    omega

theorem bytesToHex_mem (bs : List Nat) (hb : ∀ b ∈ bs, b < 256) :
    ∀ c ∈ bytesToHex bs, c ∈ hexChars := by
  intro c hc
  simp only [bytesToHex, List.mem_flatten, List.mem_map] at hc
  obtain ⟨l, ⟨b, hbmem, rfl⟩, hcl⟩ := hc
  have hb256 := hb b hbmem
  simp only [byteToHex, List.mem_cons, List.not_mem_nil, or_false] at hcl
  rcases hcl with h | h <;> subst h
  · exact hexDigit_mem _ (by omega)
  · exact hexDigit_mem _ (Nat.mod_lt _ (by omega))

/-- The seven model constants are split between the two families, so no
model is in both. -/
theorem not_model30x_and_316 (nm : NetgearModel) :
    ¬(IsModel30x nm = true ∧ IsModel316 nm = true) := by
  rintro ⟨h30, h316⟩
  simp only [IsModel30x, Bool.or_eq_true, decide_eq_true_eq] at h30
  simp only [IsModel316, Bool.or_eq_true, decide_eq_true_eq] at h316
  rcases h316 with rfl | rfl <;>
    simp [GS305EP, GS305EPP, GS308EP, GS308EPP, GS30xEPx, GS316EP, GS316EPP] at h30

theorem goContains_trans (body big small : List Char)
    (h1 : goContains body big = true) (h2 : goContains big small = true) :
    goContains body small = true := by
  have hb : big <:+: body := of_decide_eq_true h1
  have hs : small <:+: big := of_decide_eq_true h2
  exact decide_eq_true (hs.trans hb)

theorem takeWhile_append_sep (sep : Char) :
    ∀ pre rest : List Char, pre.all (fun c => !(c == sep)) = true →
      (pre ++ sep :: rest).takeWhile (fun c => !(c == sep)) = pre := by
  intro pre
  induction pre with
  | nil => intro rest _; simp [List.takeWhile_cons]
  | cons c pre' ih =>
    intro rest h
    simp only [List.all_cons, Bool.and_eq_true] at h
    simp [List.takeWhile_cons, h.1, ih rest h.2]

theorem dropWhile_append_sep (sep : Char) :
    ∀ pre rest : List Char, pre.all (fun c => !(c == sep)) = true →
      (pre ++ sep :: rest).dropWhile (fun c => !(c == sep)) = sep :: rest := by
  intro pre
  induction pre with
  | nil => intro rest _; simp [List.dropWhile_cons]
  | cons c pre' ih =>
    intro rest h
    simp only [List.all_cons, Bool.and_eq_true] at h
    simp [List.dropWhile_cons, h.1, ih rest h.2]

theorem goSplitN2_append (pre rest : List Char) (sep : Char)
    (h : pre.all (fun c => !(c == sep)) = true) :
    goSplitN2 (pre ++ sep :: rest) sep = [pre, rest] := by
  simp [goSplitN2, takeWhile_append_sep sep pre rest h, dropWhile_append_sep sep pre rest h]

theorem fsRead_write (fs : Fs) (name content : List Char) :
    fsRead (fsWrite fs name content) name = some content := by
  simp [fsRead, fsWrite, List.find?]

theorem fsRead_remove (fs : Fs) (name : List Char) :
    fsRead (fsRemove fs name) name = none := by
  induction fs with
  | nil => rfl
  | cons e t ih =>
    by_cases he : e.1 == name
    · simp [fsRemove, fsRead, List.filter, he] at ih ⊢
    · simp only [fsRemove, fsRead, List.filter, he] at ih ⊢
      simp [List.find?, he] at ih ⊢

theorem fileGetToken_write_parsed (fs : Fs) (address token : List Char)
    (model : NetgearModel) (hnosep : model.all (fun c => !(c == ':')) = true) :
    FileTokenManager.GetToken
        (fsWrite fs (FileTokenManager.getTokenFilename address)
          (model ++ [':'] ++ token)) address =
      if !IsSupportedModel (goTrimSpace model) then
        .error (.modelError ("unknown model '".toList ++ goTrimSpace model ++
          "' in token file".toList))
      else
        .ok (goTrimSpace token, goTrimSpace model) := by
  unfold FileTokenManager.GetToken
  rw [fsRead_write]
  have hassoc : model ++ [':'] ++ token = model ++ ':' :: token := by simp
  have hne : (model ++ [':'] ++ token) ≠ [] := by
    rw [hassoc]
    cases model <;> simp
  have hcont : goContains (model ++ [':'] ++ token) [':'] = true := by
    apply decide_eq_true
    exact ⟨model, token, by simp⟩
  have hsplit : goSplitN2 (model ++ [':'] ++ token) ':' = [model, token] := by
    rw [hassoc]
    exact goSplitN2_append model token ':' hnosep
  simp only [hne, if_false, hcont, Bool.not_true, Bool.false_eq_true, hsplit]
  simp

/-! ## Claim theorems -/

/-- C1: For every password and seed (byte strings), `Encrypt` is the
lowercase hexadecimal MD5 digest of the interleaved merge of the two strings
(password[0], seed[0], ..., then the remainder of the longer one); it is
deterministic, and its result is exactly 32 lowercase hex characters. -/
theorem claim_C1_encrypt (password seedValue : List Nat) :
    Encrypt password seedValue = bytesToHex (md5Sum (interleaveSpec password seedValue)) ∧
    (Encrypt password seedValue).length = 32 ∧
    (∀ c ∈ Encrypt password seedValue, c ∈ hexChars) ∧
    (∀ p' s', password = p' → seedValue = s' → Encrypt password seedValue = Encrypt p' s') := by
  refine ⟨?_, ?_, ?_, ?_⟩
  · unfold Encrypt
    rw [specialMerge_eq_interleaveSpec]
  · unfold Encrypt
    rw [bytesToHex_length, md5Sum_length]
  · exact bytesToHex_mem _ (md5Sum_lt _)
  · intro p' s' hp hs
    rw [hp, hs]

/-- Witness for C1 at password "admin", seed "424242". -/
theorem claim_C1_encrypt_witness :
    (Encrypt (strBytes "admin") (strBytes "424242")).length = 32 ∧
    Encrypt (strBytes "admin") (strBytes "424242") =
      Encrypt (strBytes "admin") (strBytes "424242") ∧
    '1' ∈ hexChars :=
  ⟨(claim_C1_encrypt (strBytes "admin") (strBytes "424242")).2.1,
   (claim_C1_encrypt (strBytes "admin") (strBytes "424242")).2.2.2
     (strBytes "admin") (strBytes "424242") rfl rfl,
   (claim_C1_encrypt (strBytes "admin") (strBytes "424242")).2.2.1 '1' (by decide)⟩

/-- C4: `CheckIsLoginRequired` is true for every body shorter than the
10-byte threshold and for every body containing a login/redirect marker,
and false for a body at least the threshold length with no marker. -/
theorem claim_C4_login_required (body : List Char) :
    (body.length < 10 → CheckIsLoginRequired body = true) ∧
    ((goContains body "/login.cgi".toList = true ∨
      goContains body "/wmi/login".toList = true ∨
      goContains body "/redirect.html".toList = true) →
        CheckIsLoginRequired body = true) ∧
    (10 ≤ body.length →
      goContains body "/login.cgi".toList = false →
      goContains body "/wmi/login".toList = false →
      goContains body "/redirect.html".toList = false →
        CheckIsLoginRequired body = false) := by
  refine ⟨?_, ?_, ?_⟩
  · intro h
    simp [CheckIsLoginRequired, h]
  · unfold CheckIsLoginRequired
    rintro (h | h | h) <;> rw [h] <;> simp
  · intro hlen h1 h2 h3
    unfold CheckIsLoginRequired
    rw [h1, h2, h3, decide_eq_false (by omega : ¬body.length < 10)]
    rfl

/-- Witness for C4: a short body, a marker body, and a realistic
authenticated data page. -/
theorem claim_C4_login_required_witness :
    CheckIsLoginRequired "short".toList = true ∧
    CheckIsLoginRequired "<html><a href=\x22/login.cgi\x22>login</a></html>".toList = true ∧
    CheckIsLoginRequired "<html><body>PoE port status: port 1 delivering 12.3 W</body></html>".toList = false :=
  ⟨(claim_C4_login_required _).1 (by decide),
   (claim_C4_login_required _).2.1 (Or.inl (by decide)),
   (claim_C4_login_required _).2.2 (by decide) (by decide) (by decide) (by decide)⟩

/-- C7 counterexample: the interleaved merge of "admin" and "424242" is not
"a4d2m4i2n4" (the trailing seed character survives the merge). -/
theorem claim_C7_counterexample :
    ¬(specialMerge (strBytes "admin") (strBytes "424242") = strBytes "a4d2m4i2n4") := by
  decide

/-- C7 amended: the interleaved merge of password "admin" with seed
"424242" equals "a4d2m4i2n42". -/
theorem claim_C7_merge_amended :
    specialMerge (strBytes "admin") (strBytes "424242") = strBytes "a4d2m4i2n42" := by
  decide

theorem fileDelete_snd_none (fs : Fs) (address : List Char) :
    (FileTokenManager.DeleteToken fs address).2 = none := by
  unfold FileTokenManager.DeleteToken
  split <;> rfl

/-- C10: `DeleteToken` on either store implementation never returns an
error, even when no token is stored, so a second delete also succeeds. -/
theorem claim_C10_delete_idempotent (fs : Fs) (m : MemStore) (address : List Char) :
    (FileTokenManager.DeleteToken fs address).2 = none ∧
    (FileTokenManager.DeleteToken (FileTokenManager.DeleteToken fs address).1 address).2 = none ∧
    (MemoryTokenManager.DeleteToken m address).2 = none ∧
    (MemoryTokenManager.DeleteToken (MemoryTokenManager.DeleteToken m address).1 address).2 = none :=
  ⟨fileDelete_snd_none fs address, fileDelete_snd_none _ address, rfl, rfl⟩

/-- C8: validation of an unsupported `(family, operation)` pair returns the
operation-not-supported error from the pure endpoint lookup; in particular
every Family30x model gets that error for the port-update operation. -/
theorem claim_C8_validate_unsupported (model : NetgearModel) (endpointType : List Char) :
    (IsModel30x model = true →
      ValidateEndpoint model EndpointPortUpdate =
        some (.operationError (EndpointPortUpdate ++ " operation not supported on ".toList ++
          model ++ " model".toList))) ∧
    ((GetEndpoint model endpointType).supported = false →
      ValidateEndpoint model endpointType =
        some (.operationError (endpointType ++ " operation not supported on ".toList ++
          model ++ " model".toList))) := by
  constructor
  · intro h30
    have hep : GetEndpoint model EndpointPortUpdate = getGS30xEndpoint EndpointPortUpdate := by
      simp [GetEndpoint, h30]
    have hsup : (getGS30xEndpoint EndpointPortUpdate).supported = false := by decide
    simp [ValidateEndpoint, hep, hsup]
  · intro hunsup
    simp [ValidateEndpoint, hunsup]

/-- Witness for C8 at `(GS305EP, port_update)`. -/
theorem claim_C8_validate_unsupported_witness :
    ValidateEndpoint GS305EP EndpointPortUpdate =
      some (.operationError (EndpointPortUpdate ++ " operation not supported on ".toList ++
        GS305EP ++ " model".toList)) ∧
    ValidateEndpoint GS305EP EndpointPortSettings =
      some (.operationError (EndpointPortSettings ++ " operation not supported on ".toList ++
        GS305EP ++ " model".toList)) :=
  ⟨(claim_C8_validate_unsupported GS305EP EndpointPortUpdate).1 (by decide),
   (claim_C8_validate_unsupported GS305EP EndpointPortSettings).2 (by decide)⟩

/-- C9 counterexample: the legacy `client.storeToken` path persists the token
file with permission bits `0644`, not the owner-only `0600` the claim states
for every token-persisting code path. -/
theorem claim_C9_counterexample :
    writePerms (legacyStoreTokenOps "cfg".toList "tmp".toList "host".toList
      "tok".toList GS305EP) = [0o644] ∧ (0o644 : Nat) ≠ 0o600 := by
  constructor
  · rfl
  · decide

/-- C9 amended: `FileTokenManager.StoreToken` creates the cache directory
with mode `0700` and writes the token file with mode `0600`; the legacy
`client.storeToken` path creates its config directory with permission bits
`0700` but writes the token file with mode `0644`. -/
theorem claim_C9_permissions_amended (cacheDir address token configDir tempDir host
    token2 : List Char) (model model2 : NetgearModel) :
    mkdirPerms (FileTokenManager.StoreTokenOps cacheDir address token model) = [0o700] ∧
    writePerms (FileTokenManager.StoreTokenOps cacheDir address token model) = [0o600] ∧
    mkdirPerms (legacyStoreTokenOps configDir tempDir host token2 model2) = [0o700] ∧
    writePerms (legacyStoreTokenOps configDir tempDir host token2 model2) = [0o644] :=
  ⟨rfl, rfl, rfl, rfl⟩

/-- C2: a Family316 request carries the token both as the cookie header
value and as the Gambit parameter merged into the query string; a Family30x
request sends only the SID cookie and leaves the URL unchanged. -/
theorem claim_C2_transport (model : NetgearModel) (token requestUrl : List Char) :
    (IsModel316 model = true →
      ∃ finalUrl, attachAuth model token requestUrl =
          some (finalUrl, "gambitCookie=".toList ++ token) ∧
        ("Gambit=".toList ++ token) <:+: finalUrl) ∧
    (IsModel30x model = true →
      attachAuth model token requestUrl = some (requestUrl, "SID=".toList ++ token)) := by
  have hql : "?Gambit=".toList = '?' :: "Gambit=".toList := rfl
  constructor
  · intro h316
    have h30 : IsModel30x model = false := by
      cases h : IsModel30x model
      · rfl
      · exact absurd ⟨h, h316⟩ (not_model30x_and_316 model)
    by_cases hq : goContains requestUrl ['?'] = true
    · refine ⟨(requestUrl.splitOn '?').getD 0 [] ++ "?Gambit=".toList ++ token ++
        "&".toList ++ (requestUrl.splitOn '?').getD 1 [], ?_, ?_⟩
      · simp [attachAuth, h316, h30, hq]
      · refine ⟨(requestUrl.splitOn '?').getD 0 [] ++ ['?'],
          "&".toList ++ (requestUrl.splitOn '?').getD 1 [], ?_⟩
        rw [hql]
        simp
    · rw [Bool.not_eq_true] at hq
      refine ⟨requestUrl ++ "?Gambit=".toList ++ token, ?_, ?_⟩
      · simp [attachAuth, h316, h30, hq]
      · refine ⟨requestUrl ++ ['?'], [], ?_⟩
        rw [hql]
        simp
  · intro h30
    have h316 : IsModel316 model = false := by
      cases h : IsModel316 model
      · rfl
      · exact absurd ⟨h30, h⟩ (not_model30x_and_316 model)
    simp [attachAuth, h30, h316]

/-- Witness for C2 at a Family316 and a Family30x model. -/
theorem claim_C2_transport_witness :
    (∃ finalUrl, attachAuth GS316EP "tok".toList "/a.cgi".toList =
        some (finalUrl, "gambitCookie=".toList ++ "tok".toList) ∧
      ("Gambit=".toList ++ "tok".toList) <:+: finalUrl) ∧
    attachAuth GS305EP "tok".toList "/a.cgi".toList =
      some ("/a.cgi".toList, "SID=".toList ++ "tok".toList) :=
  ⟨(claim_C2_transport GS316EP "tok".toList "/a.cgi".toList).1 (by decide),
   (claim_C2_transport GS305EP "tok".toList "/a.cgi".toList).2 (by decide)⟩

/-- C3: both detectors classify a body containing GS316EPP as GS316EPP (never
as GS316EP), and a redirect-to-login body with no specific model marker as
the generic GS30xEPx family. -/
theorem claim_C3_detection (body : List Char) :
    (goContains body "GS316EPP".toList = true →
      detectNetgearModelFromResponse body ≠ GS316EP ∧
      DetectFromHTML body ≠ "GS316EP".toList) ∧
    (goContains (goToLower body) "<title>".toList = true →
      goContains body "Redirect to Login".toList = true →
      goContains body "GS316EPP".toList = false →
      goContains body "GS316EP".toList = false →
      detectNetgearModelFromResponse body = GS30xEPx) ∧
    ((∀ marker ∈ specificModels, goContains body marker = false) →
      (goContains body "Redirect to Login".toList = true ∨
        goContains body "redirect".toList = true) →
      DetectFromHTML body = "GS30xEPx".toList) := by
  refine ⟨?_, ?_, ?_⟩
  · intro hEPP
    constructor
    · by_cases ht : goContains (goToLower body) "<title>".toList = true
      · simp only [detectNetgearModelFromResponse, ht, hEPP, Bool.and_self, if_true]
        decide
      · rw [Bool.not_eq_true] at ht
        simp only [detectNetgearModelFromResponse, ht, Bool.false_and, if_false]
        decide
    · simp only [DetectFromHTML, specificModels, List.find?, hEPP]
      decide
  · intro ht hred hEPP hEP
    simp only [detectNetgearModelFromResponse]
    rw [ht, hred, hEPP, hEP]
    simp
  · intro hall hor
    have h1 := hall "GS316EPP".toList (by decide)
    have h2 := hall "GS308EPP".toList (by decide)
    have h3 := hall "GS305EPP".toList (by decide)
    have h4 := hall "GS316EP".toList (by decide)
    have h5 := hall "GS308EP".toList (by decide)
    have h6 := hall "GS305EP".toList (by decide)
    rcases hor with h | h <;>
      · simp only [DetectFromHTML, specificModels, List.find?]
        rw [h1, h2, h3, h4, h5, h6, h]
        simp

/-- Witness for C3 on concrete page bodies. -/
theorem claim_C3_detection_witness :
    (detectNetgearModelFromResponse "<title>NETGEAR GS316EPP</title>".toList ≠ GS316EP ∧
      DetectFromHTML "<title>NETGEAR GS316EPP</title>".toList ≠ "GS316EP".toList) ∧
    detectNetgearModelFromResponse "<title>Redirect to Login</title>".toList = GS30xEPx ∧
    DetectFromHTML "<title>Redirect to Login</title>".toList = "GS30xEPx".toList :=
  ⟨(claim_C3_detection "<title>NETGEAR GS316EPP</title>".toList).1 (by decide),
   (claim_C3_detection "<title>Redirect to Login</title>".toList).2.1
     (by decide) (by decide) (by decide) (by decide),
   (claim_C3_detection "<title>Redirect to Login</title>".toList).2.2
     (by decide) (Or.inl (by decide))⟩

/-- C5 counterexample: storing token " abc" (leading space) under a
supported family and reading it back returns the trimmed token "abc", not
the identical pair that was stored (`GetToken` trims both fields). -/
theorem claim_C5_counterexample :
    FileTokenManager.GetToken
        (FileTokenManager.StoreToken [] "192.168.1.10".toList " abc".toList GS305EP)
        "192.168.1.10".toList ≠ .ok (" abc".toList, GS305EP) := by
  decide

/-- C5 amended: for a supported family and a token equal to its own
whitespace trim, `StoreToken` then `GetToken` for the same host returns the
identical `(token, family)` pair, and `DeleteToken` then `GetToken` returns
the failed-to-read (not found) error. -/
theorem claim_C5_roundtrip_amended (fs : Fs) (address token : List Char)
    (model : NetgearModel) (hsup : IsSupportedModel model = true)
    (ht : goTrimSpace token = token) :
    FileTokenManager.GetToken (FileTokenManager.StoreToken fs address token model) address =
      .ok (token, model) ∧
    FileTokenManager.GetToken (FileTokenManager.DeleteToken fs address).1 address =
      .error (.authError "failed to read token file".toList) := by
  constructor
  · have hprops : model.all (fun c => !(c == ':')) = true ∧ goTrimSpace model = model := by
      simp only [IsSupportedModel, IsModel30x, IsModel316, Bool.or_eq_true,
        decide_eq_true_eq] at hsup
      rcases hsup with ((((rfl | rfl) | rfl) | rfl) | rfl) | (rfl | rfl) <;>
        exact ⟨by decide, by decide⟩
    unfold FileTokenManager.StoreToken
    rw [fsWrite, ← fsWrite]
    rw [fileGetToken_write_parsed fs address token model hprops.1, hprops.2, ht, hsup]
    rfl
  · have hnone : fsRead (FileTokenManager.DeleteToken fs address).1
        (FileTokenManager.getTokenFilename address) = none := by
      unfold FileTokenManager.DeleteToken
      split
      · exact fsRead_remove fs _
      · rename_i hmiss
        cases hr : fsRead fs (FileTokenManager.getTokenFilename address) with
        | none => rfl
        | some c =>
          rw [hr] at hmiss
          simp at hmiss
    unfold FileTokenManager.GetToken
    rw [hnone]

/-- Witness for C5 (amended) with a concrete host, family, and token. -/
theorem claim_C5_roundtrip_amended_witness :
    FileTokenManager.GetToken
        (FileTokenManager.StoreToken [] "sw1".toList "abc123".toList GS316EP)
        "sw1".toList = .ok ("abc123".toList, GS316EP) ∧
    FileTokenManager.GetToken (FileTokenManager.DeleteToken [] "sw1".toList).1
        "sw1".toList = .error (.authError "failed to read token file".toList) :=
  claim_C5_roundtrip_amended [] "sw1".toList "abc123".toList GS316EP
    (by decide) (by decide)

/-- C6 counterexample: a stored record without the `family:token` separator
makes `GetToken` return the malformed-token `AuthError`, which is the same
inspectable kind (`AuthError`) as the error returned when no record exists,
not a distinct one. -/
theorem claim_C6_counterexample :
    FileTokenManager.GetToken
        (fsWrite [] (FileTokenManager.getTokenFilename "192.168.1.10".toList) "abc".toList)
        "192.168.1.10".toList = .error (.authError "malformed token file".toList) ∧
    FileTokenManager.GetToken ([] : Fs) "192.168.1.10".toList =
      .error (.authError "failed to read token file".toList) ∧
    errKind (.authError "malformed token file".toList) =
      errKind (.authError "failed to read token file".toList) := by
  refine ⟨by decide, by decide, rfl⟩

/-- C6 amended: `GetToken` on corrupt records returns errors, never a panic:
a record without the separator yields the malformed-token `AuthError` (same
kind as not-found, differing only in message), and a record with an
unsupported family yields a `ModelError`, which is a kind distinct from the
not-found error. -/
theorem claim_C6_corrupt_amended (fs : Fs) (address content token : List Char)
    (model : NetgearModel) (hne : content ≠ [])
    (hnosep : goContains content [':'] = false)
    (hmodelnosep : model.all (fun c => !(c == ':')) = true)
    (hmtrim : goTrimSpace model = model)
    (hunsup : IsSupportedModel model = false) :
    FileTokenManager.GetToken
        (fsWrite fs (FileTokenManager.getTokenFilename address) content) address =
      .error (.authError "malformed token file".toList) ∧
    FileTokenManager.GetToken (FileTokenManager.StoreToken fs address token model) address =
      .error (.modelError ("unknown model '".toList ++ model ++ "' in token file".toList)) ∧
    (fsRead fs (FileTokenManager.getTokenFilename address) = none →
      FileTokenManager.GetToken fs address =
        .error (.authError "failed to read token file".toList)) ∧
    errKind (.modelError ("unknown model '".toList ++ model ++ "' in token file".toList)) ≠
      errKind (.authError "failed to read token file".toList) := by
  refine ⟨?_, ?_, ?_, by simp [errKind]⟩
  · unfold FileTokenManager.GetToken
    rw [fsRead_write]
    simp [hne, hnosep]
  · unfold FileTokenManager.StoreToken
    rw [fsWrite, ← fsWrite]
    rw [fileGetToken_write_parsed fs address token model hmodelnosep, hmtrim, hunsup]
    rfl
  · intro hnone
    unfold FileTokenManager.GetToken
    rw [hnone]

/-- Witness for C6 (amended) with a concrete corrupt record and an
unsupported family. -/
theorem claim_C6_corrupt_amended_witness :
    FileTokenManager.GetToken
        (fsWrite [] (FileTokenManager.getTokenFilename "sw1".toList) "abc".toList)
        "sw1".toList = .error (.authError "malformed token file".toList) ∧
    FileTokenManager.GetToken
        (FileTokenManager.StoreToken [] "sw1".toList "t".toList "XYZ".toList)
        "sw1".toList =
      .error (.modelError ("unknown model '".toList ++ "XYZ".toList ++
        "' in token file".toList)) ∧
    (fsRead ([] : Fs) (FileTokenManager.getTokenFilename "sw1".toList) = none →
      FileTokenManager.GetToken ([] : Fs) "sw1".toList =
        .error (.authError "failed to read token file".toList)) ∧
    errKind (.modelError ("unknown model '".toList ++ "XYZ".toList ++
        "' in token file".toList)) ≠
      errKind (.authError "failed to read token file".toList) :=
  claim_C6_corrupt_amended [] "sw1".toList "abc".toList "t".toList "XYZ".toList
    (by decide) (by decide) (by decide) (by decide) (by decide)
